import Mathlib

/-!
Verification of the drone-runner-kube pipeline compilation core:
the step filter (include/exclude lists), the run-policy helpers,
the dependency-graph builder passes and the resource helpers,
embedded shallowly from `command/exec.go` and
`engine/compiler/util.go`.
-/

namespace DroneKube

/-- Run policy of a compiled step (`runtime.RunPolicy` in runner-go):
always, on failure, on success (default), never. -/
inductive RunPolicy where
  | runOnSuccess
  | runOnFailure
  | runAlways
  | runNever
  deriving DecidableEq

/-- Compiled step (`engine.Step`): the fields the claims touch.
`runPolicy` is the only field the step filter may mutate; the remaining
fields stand for everything else on the step. -/
structure Step where
  name : String
  image : String
  dependsOn : List String
  errIgnore : Bool
  runPolicy : RunPolicy
  deriving DecidableEq

/-- Include pass of the step filter, per-step body of the labelled loop
`I:` in `execCommand.run` (`command/exec.go`): a step named "clone" is
skipped; a step named in the include list is skipped; every other step
has its run policy forced to never. -/
def filterIncludeStep (includeList : List String) (step : Step) : Step :=
  if step.name = "clone" then step
  else if includeList.contains step.name then step
  else { step with runPolicy := RunPolicy.runNever }

/-- Include pass over the whole compiled set: it runs only when the
include list is non-empty (`if len(c.Include) > 0`). -/
def applyInclude (includeList : List String) (steps : List Step) : List Step :=
  if includeList.length > 0 then steps.map (filterIncludeStep includeList)
  else steps

/-- Exclude pass of the step filter, per-step body of the labelled loop
`E:` in `execCommand.run` (`command/exec.go`): a step named "clone" is
skipped; a step named in the exclude list has its run policy forced to
never; every other step is untouched. -/
def filterExcludeStep (excludeList : List String) (step : Step) : Step :=
  if step.name = "clone" then step
  else if excludeList.contains step.name then { step with runPolicy := RunPolicy.runNever }
  else step

/-- Exclude pass over the whole compiled set: it runs only when the
exclude list is non-empty (`if len(c.Exclude) > 0`). -/
def applyExclude (excludeList : List String) (steps : List Step) : List Step :=
  if excludeList.length > 0 then steps.map (filterExcludeStep excludeList)
  else steps

/-- The step filter of `execCommand.run`: the include block runs first,
then the exclude block; in the source the two `if` statements are
independent, so both passes run whenever their list is non-empty. -/
def filterSteps (includeList excludeList : List String) (steps : List Step) : List Step :=
  applyExclude excludeList (applyInclude includeList steps)

/-- Everything of a step except its run policy, for frame reasoning. -/
def stepShape (s : Step) : String × String × List String × Bool :=
  (s.name, s.image, s.dependsOn, s.errIgnore)

/-- Concrete steps used by counterexamples and witnesses. -/
def cloneStep : Step :=
  { name := "clone", image := "git", dependsOn := [], errIgnore := false,
    runPolicy := RunPolicy.runOnSuccess }

def buildStep : Step :=
  { name := "build", image := "golang", dependsOn := ["clone"], errIgnore := false,
    runPolicy := RunPolicy.runOnSuccess }

def testStep : Step :=
  { name := "test", image := "golang", dependsOn := ["build"], errIgnore := false,
    runPolicy := RunPolicy.runOnSuccess }

def deployStep : Step :=
  { name := "deploy", image := "alpine", dependsOn := ["test"], errIgnore := false,
    runPolicy := RunPolicy.runOnFailure }

def exampleSteps : List Step :=
  [cloneStep, buildStep, testStep, deployStep]

/-- Loop of `configureSerial` (`engine/compiler/util.go`): `prev` holds
the previous step (its name is all that is read); every step with a
predecessor has its dependency list overwritten with the predecessor's
name. -/
def configureSerialGo : Option String → List Step → List Step
  | _, [] => []
  | none, s :: rest => s :: configureSerialGo (some s.name) rest
  | some p, s :: rest => { s with dependsOn := [p] } :: configureSerialGo (some s.name) rest

/-- `configureSerial` (`engine/compiler/util.go`): builds the strictly
serial dependency chain; `prev` starts as nil. -/
def configureSerial (steps : List Step) : List Step :=
  configureSerialGo none steps

/-- `configureCloneDeps` (`engine/compiler/util.go`): every step not
named "clone" whose dependency list is empty is given the single
dependency "clone"; all other steps are untouched. -/
def configureCloneDeps (steps : List Step) : List Step :=
  steps.map fun s =>
    if s.name = "clone" then s
    else if s.dependsOn.length = 0 then { s with dependsOn := ["clone"] }
    else s

/-- `removeCloneDeps` (`engine/compiler/util.go`): if any step is named
"clone" the function returns with no change; otherwise every step whose
dependency list is exactly the one-element list `["clone"]` has it
emptied. -/
def removeCloneDeps (steps : List Step) : List Step :=
  if steps.any (fun s => s.name = "clone") then steps
  else steps.map fun s =>
    if s.dependsOn = ["clone"] then { s with dependsOn := [] } else s

/-- Concrete steps with no dependencies, for the serial-chain witness. -/
def freeStep (n : String) : Step :=
  { name := n, image := "alpine", dependsOn := [], errIgnore := false,
    runPolicy := RunPolicy.runOnSuccess }

/-- Concrete set with no "clone" step where one step depends solely on
"clone" and another depends on "clone" together with a second name. -/
def danglingSteps : List Step :=
  [{ name := "a", image := "alpine", dependsOn := ["clone"], errIgnore := false,
     runPolicy := RunPolicy.runOnSuccess },
   { name := "b", image := "alpine", dependsOn := ["clone", "a"], errIgnore := false,
     runPolicy := RunPolicy.runOnSuccess }]

/-- Status-match condition of a declarative step (`manifest.Condition`):
an include list and an exclude list of status names. -/
structure Condition where
  Include : List String
  Exclude : List String
  deriving DecidableEq

/-- Modelled from the spec: `Condition.Match` of the external manifest
library (the "status matcher" of §4.1), whose source is not part of this
repository: a value is matched when it is not excluded and is either
named in the include list or the include list is empty. -/
def Condition.Match (c : Condition) (v : String) : Bool :=
  if c.Exclude.contains v then false
  else if c.Include.contains v then true
  else c.Include.isEmpty

/-- The "when" conditions of a declarative step; only the status
condition matters to this core. -/
structure Conditions where
  status : Condition
  deriving DecidableEq

/-- Declarative step (`resource.Step`): the field the run-policy helpers
read. -/
structure ResourceStep where
  name : String
  whenCond : Conditions
  deriving DecidableEq

/-- The failing build status (`drone.StatusFailing`). -/
def statusFailing : String := "failure"

/-- The passing build status (`drone.StatusPassing`). -/
def statusPassing : String := "success"

/-- `isRunAlways` (`engine/compiler/util.go`): false when both the
include and exclude lists of the status condition are empty; otherwise
true exactly when the condition matches both the failing and the
passing status. -/
def isRunAlways (step : ResourceStep) : Bool :=
  if step.whenCond.status.Include.length = 0 ∧
      step.whenCond.status.Exclude.length = 0 then false
  else step.whenCond.status.Match statusFailing &&
    step.whenCond.status.Match statusPassing

/-- `isRunOnFailure` (`engine/compiler/util.go`): false when both the
include and exclude lists of the status condition are empty; otherwise
true exactly when the condition matches the failing status. -/
def isRunOnFailure (step : ResourceStep) : Bool :=
  if step.whenCond.status.Include.length = 0 ∧
      step.whenCond.status.Exclude.length = 0 then false
  else step.whenCond.status.Match statusFailing

/-- Modelled from the spec: the run-policy resolver of the compiler
(§4.1; its body lives in the compiler source outside the provided
files): the "always" check is evaluated first, then the "on failure"
check, and the default is "on success only". -/
def resolveRunPolicy (step : ResourceStep) : RunPolicy :=
  if isRunAlways step then RunPolicy.runAlways
  else if isRunOnFailure step then RunPolicy.runOnFailure
  else RunPolicy.runOnSuccess

/-- `firstNonZero` (`engine/compiler/util.go`): walks the candidates in
order and returns the first value strictly greater than zero, or zero
when the list is exhausted. -/
def firstNonZero (values : List Int) : Int :=
  match values with
  | [] => 0
  | v :: rest => if v > 0 then v else firstNonZero rest

/-- CPU / memory / GPU amounts (`compiler.ResourceObject`, int64
fields). -/
structure ResourceObject where
  cpu : Int
  memory : Int
  gpu : Int
  deriving DecidableEq

/-- Limits and minimum per-container requests (`compiler.Resources`). -/
structure Resources where
  limits : ResourceObject
  minRequests : ResourceObject
  deriving DecidableEq

/-- Two-complement wrap of a 64-bit signed product, the Go `int64`
overflow behaviour. -/
def wrap64 (x : Int) : Int := (x + 2 ^ 63) % 2 ^ 64 - 2 ^ 63

/-- One megabyte-to-byte conversion as Go computes it:
`m *= 1024 * 1024` on an `int64`. -/
def mulMem (m : Int) : Int := wrap64 (m * (1024 * 1024))

/-- Prologue of `execCommand.run` (`command/exec.go`): the three memory
amounts supplied at the command boundary — container limit, container
minimum request, stage request — are each multiplied once by
1024 * 1024; nothing else is touched. -/
def convertMemoryToBytes (res : Resources) (stageReq : ResourceObject) :
    Resources × ResourceObject :=
  ({ limits := { res.limits with memory := mulMem res.limits.memory },
     minRequests := { res.minRequests with memory := mulMem res.minRequests.memory } },
   { stageReq with memory := mulMem stageReq.memory })

/-- Concrete declarative step with an empty status condition. -/
def emptyCondStep : ResourceStep :=
  { name := "build", whenCond := { status := { Include := [], Exclude := [] } } }

/-- Concrete declarative step whose condition names both statuses. -/
def alwaysCondStep : ResourceStep :=
  { name := "notify", whenCond := { status := { Include := ["failure", "success"], Exclude := [] } } }

/-- Concrete resources for the memory-conversion witness. -/
def memExample : Resources :=
  { limits := { cpu := 2000, memory := 512, gpu := 0 },
    minRequests := { cpu := 1, memory := 4, gpu := 0 } }

def stageExample : ResourceObject := { cpu := 100, memory := 100, gpu := 0 }

/- ------------------------------------------------------------------ -/
/- Theorems                                                           -/
/- ------------------------------------------------------------------ -/

theorem filterIncludeStep_shape (inc : List String) (s : Step) :
    stepShape (filterIncludeStep inc s) = stepShape s := by
  unfold filterIncludeStep
  split
  · rfl
  · split <;> rfl

theorem filterExcludeStep_shape (exc : List String) (s : Step) :
    stepShape (filterExcludeStep exc s) = stepShape s := by
  unfold filterExcludeStep
  split
  · rfl
  · split <;> rfl

theorem applyInclude_shape (inc : List String) (steps : List Step) :
    (applyInclude inc steps).map stepShape = steps.map stepShape := by
  unfold applyInclude
  split
  · rw [List.map_map]
    exact List.map_congr_left fun s _ => filterIncludeStep_shape inc s
  · rfl

theorem applyExclude_shape (exc : List String) (steps : List Step) :
    (applyExclude exc steps).map stepShape = steps.map stepShape := by
  unfold applyExclude
  split
  · rw [List.map_map]
    exact List.map_congr_left fun s _ => filterExcludeStep_shape exc s
  · rfl

/-- C1 counterexample: on the set `{clone, build}` with include list
`["build"]` and exclude list `["build"]`, filtering with both lists does
not produce the same run policies as filtering with the include list
alone: the exclude pass runs after the include pass and forces `build`
to never. -/
theorem filter_both_lists_cex :
    (filterSteps ["build"] ["build"] [cloneStep, buildStep]).map Step.runPolicy ≠
      (filterSteps ["build"] [] [cloneStep, buildStep]).map Step.runPolicy := by
  decide

/-- C1 (amended): when both lists are supplied, both are evaluated, in
sequence: filtering with both lists equals filtering with the include
list alone and then filtering the result with the exclude list alone. -/
theorem filter_both_lists_sequential (inc exc : List String) (steps : List Step) :
    filterSteps inc exc steps = filterSteps [] exc (filterSteps inc [] steps) := by
  simp [filterSteps, applyInclude, applyExclude]

/-- C2: when the include list is non-empty, the include filter forces
the run policy of every step neither named in the list nor named
"clone" to never, and leaves every step named in the list, and the step
named "clone", entirely unchanged (in particular its run policy). -/
theorem filter_include_policies (inc : List String) (steps : List Step)
    (h : inc ≠ []) :
    filterSteps inc [] steps =
      steps.map fun s =>
        if s.name = "clone" ∨ inc.contains s.name then s
        else { s with runPolicy := RunPolicy.runNever } := by
  have hlen : inc.length > 0 := List.length_pos.mpr h
  simp only [filterSteps, applyExclude, List.length_nil, gt_iff_lt, lt_self_iff_false,
    if_false, applyInclude, if_pos hlen]
  exact List.map_congr_left fun s _ => by
    unfold filterIncludeStep
    by_cases hc : s.name = "clone"
    · simp [hc]
    · by_cases hm : inc.contains s.name <;> simp [hc, hm]

/-- C2 witness: the spec's example, include list `["build"]` on the set
`{clone, build, test, deploy}`. -/
theorem filter_include_policies_witness :
    (["build"] : List String) ≠ [] ∧
      filterSteps ["build"] [] exampleSteps =
        exampleSteps.map fun s =>
          if s.name = "clone" ∨ (["build"] : List String).contains s.name then s
          else { s with runPolicy := RunPolicy.runNever } :=
  ⟨by decide, filter_include_policies ["build"] exampleSteps (by decide)⟩

/-- C7: the step filter mutates run policies only: for every compiled
step set and every include/exclude combination, every field of every
step other than the run policy (name, image, dependency list, error
policy) is unchanged by filtering. -/
theorem filter_frame (inc exc : List String) (steps : List Step) :
    (filterSteps inc exc steps).map stepShape = steps.map stepShape := by
  unfold filterSteps
  rw [applyExclude_shape, applyInclude_shape]

theorem configureSerialGo_length (p : Option String) (steps : List Step) :
    (configureSerialGo p steps).length = steps.length := by
  induction steps generalizing p with
  | nil => cases p <;> rfl
  | cons s rest ih => cases p <;> simp [configureSerialGo, ih]

theorem configureSerialGo_some (steps : List Step) (p : String) :
    configureSerialGo (some p) steps =
      List.zipWith (fun pn cur => { cur with dependsOn := [pn] })
        (p :: steps.map Step.name) steps := by
  induction steps generalizing p with
  | nil => rfl
  | cons s rest ih => simp [configureSerialGo, ih]

theorem configureSerial_cons (s : Step) (rest : List Step) :
    configureSerial (s :: rest) =
      s :: List.zipWith (fun pn cur => { cur with dependsOn := [pn] })
        ((s :: rest).map Step.name) rest := by
  simp [configureSerial, configureSerialGo, configureSerialGo_some]

/-- C5: on a compiled sequence in which no step has an explicit
dependency, `configureSerial` preserves the number of steps, leaves
step 0 with no dependency, and gives every step at position i+1 the
dependency list holding exactly the name of the step at position i. -/
theorem configure_serial_chain (steps : List Step)
    (h : ∀ s ∈ steps, s.dependsOn = []) :
    (configureSerial steps).length = steps.length ∧
    (∀ h0 : 0 < (configureSerial steps).length,
        ((configureSerial steps).get ⟨0, h0⟩).dependsOn = []) ∧
    ∀ i : ℕ, ∀ hi : i + 1 < (configureSerial steps).length,
      ∀ hs : i < steps.length,
        ((configureSerial steps).get ⟨i + 1, hi⟩).dependsOn =
          [(steps.get ⟨i, hs⟩).name] := by
  refine ⟨configureSerialGo_length none steps, ?_, ?_⟩
  · intro h0
    cases steps with
    | nil => simp [configureSerial, configureSerialGo] at h0
    | cons s rest =>
      simp only [List.get_eq_getElem, configureSerial_cons, List.getElem_cons_zero]
      exact h s (List.mem_cons_self s rest)
  · intro i hi hs
    cases steps with
    | nil => simp at hs
    | cons s rest =>
      simp only [List.get_eq_getElem, configureSerial_cons, List.getElem_cons_succ,
        List.getElem_zipWith, List.getElem_map]

/-- C5 witness: three steps with no explicit dependency. -/
theorem configure_serial_chain_witness :
    (∀ s ∈ [freeStep "a", freeStep "b", freeStep "c"], s.dependsOn = []) ∧
      (configureSerial [freeStep "a", freeStep "b", freeStep "c"]).length =
        ([freeStep "a", freeStep "b", freeStep "c"] : List Step).length ∧
      ((configureSerial [freeStep "a", freeStep "b", freeStep "c"]).get
          ⟨1, by decide⟩).dependsOn =
        [(([freeStep "a", freeStep "b", freeStep "c"] : List Step).get ⟨0, by decide⟩).name] :=
  ⟨by decide,
   (configure_serial_chain [freeStep "a", freeStep "b", freeStep "c"] (by decide)).1,
   (configure_serial_chain [freeStep "a", freeStep "b", freeStep "c"] (by decide)).2.2
     0 (by decide) (by decide)⟩

/-- C6: clone-dependency injection gives every step not named "clone"
whose dependency list was empty the list `["clone"]` and leaves steps
with a non-empty dependency list untouched; clone-dependency removal,
on a set with no step named "clone", empties the dependency list of
every step whose list was exactly `["clone"]`, leaves every other step
untouched, and changes nothing at all when a step named "clone" is
present. -/
theorem clone_deps_inject_remove (steps : List Step) :
    (∀ i : ℕ, ∀ hi : i < (configureCloneDeps steps).length, ∀ hs : i < steps.length,
        ((steps.get ⟨i, hs⟩).name ≠ "clone" → (steps.get ⟨i, hs⟩).dependsOn = [] →
          ((configureCloneDeps steps).get ⟨i, hi⟩).dependsOn = ["clone"]) ∧
        ((steps.get ⟨i, hs⟩).dependsOn ≠ [] →
          (configureCloneDeps steps).get ⟨i, hi⟩ = steps.get ⟨i, hs⟩)) ∧
    ((∀ s ∈ steps, s.name ≠ "clone") →
      ∀ i : ℕ, ∀ hi : i < (removeCloneDeps steps).length, ∀ hs : i < steps.length,
        ((steps.get ⟨i, hs⟩).dependsOn = ["clone"] →
          ((removeCloneDeps steps).get ⟨i, hi⟩).dependsOn = []) ∧
        ((steps.get ⟨i, hs⟩).dependsOn ≠ ["clone"] →
          (removeCloneDeps steps).get ⟨i, hi⟩ = steps.get ⟨i, hs⟩)) ∧
    ((∃ s ∈ steps, s.name = "clone") → removeCloneDeps steps = steps) := by
  refine ⟨?_, ?_, ?_⟩
  · intro i hi hs
    constructor
    · intro hn hd
      simp only [configureCloneDeps, List.get_eq_getElem, List.getElem_map]
      simp only [List.get_eq_getElem] at hn hd
      simp [hn, hd]
    · intro hd
      simp only [configureCloneDeps, List.get_eq_getElem, List.getElem_map]
      simp only [List.get_eq_getElem] at hd
      by_cases hn : steps[i].name = "clone"
      · simp [hn]
      · simp [hn, List.length_eq_zero, hd]
  · intro hnone i hi hs
    have hany : steps.any (fun s => s.name = "clone") = false := by
      simp only [List.any_eq_false, decide_eq_true_eq]
      intro s hsmem
      exact hnone s hsmem
    constructor
    · intro hd
      simp only [removeCloneDeps, hany, Bool.false_eq_true, if_false,
        List.get_eq_getElem, List.getElem_map]
      simp only [List.get_eq_getElem] at hd
      simp [hd]
    · intro hd
      simp only [removeCloneDeps, hany, Bool.false_eq_true, if_false,
        List.get_eq_getElem, List.getElem_map]
      simp only [List.get_eq_getElem] at hd
      simp [hd]
  · rintro ⟨s, hsmem, hsname⟩
    have hany : steps.any (fun s => s.name = "clone") = true :=
      List.any_eq_true.mpr ⟨s, hsmem, by simp [hsname]⟩
    simp [removeCloneDeps, hany]

/-- C6 witness: the spec's example, a checkout step plus three steps
with no explicit dependency, and removal on a set without checkout. -/
theorem clone_deps_inject_remove_witness :
    ((([freeStep "x"] : List Step).get ⟨0, by decide⟩).name ≠ "clone" ∧
      ((configureCloneDeps [freeStep "x"]).get ⟨0, by decide⟩).dependsOn = ["clone"]) ∧
    removeCloneDeps exampleSteps = exampleSteps :=
  ⟨⟨by decide,
    ((clone_deps_inject_remove [freeStep "x"]).1 0 (by decide) (by decide)).1
      (by decide) (by decide)⟩,
   (clone_deps_inject_remove exampleSteps).2.2
     ⟨cloneStep, by decide, by decide⟩⟩

/-- C10: on a set with no step named "clone", `removeCloneDeps` rewrites
exactly the steps whose dependency list is the one-element list
`["clone"]`; a step listing "clone" together with another name keeps the
dangling "clone" entry, so the resulting set can contain a dependency
entry naming no step in the set. -/
theorem remove_clone_deps_dangling (steps : List Step)
    (h : ∀ s ∈ steps, s.name ≠ "clone") :
    removeCloneDeps steps =
      (steps.map fun s =>
        if s.dependsOn = ["clone"] then { s with dependsOn := [] } else s) ∧
    (∃ s, s ∈ removeCloneDeps danglingSteps ∧
      ∃ d ∈ s.dependsOn, ∀ t ∈ removeCloneDeps danglingSteps, t.name ≠ d) := by
  constructor
  · have hany : steps.any (fun s => s.name = "clone") = false := by
      simp only [List.any_eq_false, decide_eq_true_eq]
      intro s hsmem
      exact h s hsmem
    simp [removeCloneDeps, hany]
  · decide

/-- C10 witness: the two-step set where "a" depended solely on "clone"
and "b" depended on "clone" and "a". -/
theorem remove_clone_deps_dangling_witness :
    (∀ s ∈ danglingSteps, s.name ≠ "clone") ∧
      removeCloneDeps danglingSteps =
        danglingSteps.map fun s =>
          if s.dependsOn = ["clone"] then { s with dependsOn := [] } else s :=
  ⟨by decide, (remove_clone_deps_dangling danglingSteps (by decide)).1⟩

/-- C3: with an empty include list and an empty exclude list on the
status condition, `isRunAlways` and `isRunOnFailure` both return false,
so the resolver yields the default policy "on success only". -/
theorem run_policy_default (step : ResourceStep)
    (hi : step.whenCond.status.Include = [])
    (he : step.whenCond.status.Exclude = []) :
    isRunAlways step = false ∧ isRunOnFailure step = false ∧
      resolveRunPolicy step = RunPolicy.runOnSuccess := by
  have h1 : isRunAlways step = false := by simp [isRunAlways, hi, he]
  have h2 : isRunOnFailure step = false := by simp [isRunOnFailure, hi, he]
  exact ⟨h1, h2, by simp [resolveRunPolicy, h1, h2]⟩

/-- C3 witness: a step with an empty status condition. -/
theorem run_policy_default_witness :
    emptyCondStep.whenCond.status.Include = [] ∧
      (isRunAlways emptyCondStep = false ∧ isRunOnFailure emptyCondStep = false ∧
        resolveRunPolicy emptyCondStep = RunPolicy.runOnSuccess) :=
  ⟨rfl, run_policy_default emptyCondStep rfl rfl⟩

/-- C4: a non-empty status condition matching both the failing and the
passing status makes `isRunAlways` true; `isRunAlways` implies
`isRunOnFailure` for every step; and the resolver, checking "always"
first, classifies such a step as "always", never "on failure". -/
theorem run_policy_always_first (step : ResourceStep)
    (hne : step.whenCond.status.Include ≠ [] ∨ step.whenCond.status.Exclude ≠ [])
    (hf : step.whenCond.status.Match statusFailing = true)
    (hp : step.whenCond.status.Match statusPassing = true) :
    isRunAlways step = true ∧
      (∀ s : ResourceStep, isRunAlways s = true → isRunOnFailure s = true) ∧
      resolveRunPolicy step = RunPolicy.runAlways := by
  have hcase : ¬ (step.whenCond.status.Include.length = 0 ∧
      step.whenCond.status.Exclude.length = 0) := by
    rcases hne with h | h
    · exact fun hc => h (List.length_eq_zero.mp hc.1)
    · exact fun hc => h (List.length_eq_zero.mp hc.2)
  have h1 : isRunAlways step = true := by
    simp only [isRunAlways, if_neg hcase, hf, hp, Bool.and_self]
  refine ⟨h1, ?_, by simp [resolveRunPolicy, h1]⟩
  intro s hs
  by_cases hc : s.whenCond.status.Include.length = 0 ∧ s.whenCond.status.Exclude.length = 0
  · simp [isRunAlways, hc] at hs
  · simp only [isRunAlways, if_neg hc, Bool.and_eq_true] at hs
    simp only [isRunOnFailure, if_neg hc, hs.1]

/-- C4 witness: a step whose include list names both statuses. -/
theorem run_policy_always_first_witness :
    (alwaysCondStep.whenCond.status.Include ≠ [] ∨
        alwaysCondStep.whenCond.status.Exclude ≠ []) ∧
      isRunAlways alwaysCondStep = true ∧
      resolveRunPolicy alwaysCondStep = RunPolicy.runAlways :=
  ⟨Or.inl (by decide),
   (run_policy_always_first alwaysCondStep (Or.inl (by decide)) (by decide) (by decide)).1,
   (run_policy_always_first alwaysCondStep (Or.inl (by decide)) (by decide) (by decide)).2.2⟩

/-- C8 counterexample: at the candidate list `[-1]` the function does
not return the first non-zero candidate: every candidate is non-zero,
yet `firstNonZero` returns 0, because the loop skips values that are
not strictly positive. -/
theorem first_non_zero_cex :
    firstNonZero [-1] = 0 ∧ (-1 : Int) ≠ 0 := by decide

theorem firstNonZero_nonneg (values : List Int) (h : ∀ v ∈ values, 0 ≤ v) :
    firstNonZero values = (values.filter (fun v => v != 0)).headD 0 := by
  induction values with
  | nil => rfl
  | cons v rest ih =>
    have hv : 0 ≤ v := h v (List.mem_cons_self v rest)
    by_cases hpos : v > 0
    · have hne : (v != 0) = true := by simp; omega
      simp [firstNonZero, hpos, List.filter_cons, hne]
    · have hv0 : v = 0 := by omega
      subst hv0
      simp only [firstNonZero, gt_iff_lt, lt_self_iff_false, if_false, List.filter_cons,
        bne_self_eq_false, Bool.false_eq_true]
      exact ih fun w hw => h w (List.mem_cons_of_mem _ hw)

/-- C8 (amended): resource-limit resolution returns the first strictly
positive candidate in priority order, and 0 when no candidate is
positive; since resource amounts are non-negative, on non-negative
candidates this is the first non-zero candidate, and in particular
`firstNonZero [0, 512, 256] = 512`. -/
theorem first_non_zero_resolution (values : List Int) (h : ∀ v ∈ values, 0 ≤ v) :
    firstNonZero values = (values.filter (fun v => v != 0)).headD 0 ∧
      firstNonZero [0, 512, 256] = 512 :=
  ⟨firstNonZero_nonneg values h, by decide⟩

/-- C8 witness: the spec's example, candidates 0, 512, 256. -/
theorem first_non_zero_resolution_witness :
    (∀ v ∈ ([0, 512, 256] : List Int), 0 ≤ v) ∧
      firstNonZero [0, 512, 256] =
        (([0, 512, 256] : List Int).filter (fun v => v != 0)).headD 0 :=
  ⟨by decide, (first_non_zero_resolution [0, 512, 256] (by decide)).1⟩

theorem wrap64_eq_self (x : Int) (h1 : -(2 ^ 63) ≤ x) (h2 : x < 2 ^ 63) :
    wrap64 x = x := by
  unfold wrap64
  have ha : 0 ≤ x + 2 ^ 63 := by omega
  have hb : x + 2 ^ 63 < 2 ^ 64 := by omega
  rw [Int.emod_eq_of_lt ha hb]
  omega

/-- C9: each of the three memory amounts supplied at the command
boundary is multiplied by exactly 1,048,576 (once per value, as long as
the product fits an int64), and every other resource field is left
unchanged. -/
theorem memory_megabytes_to_bytes (res : Resources) (stageReq : ResourceObject)
    (h1 : -(2 ^ 43) ≤ res.limits.memory ∧ res.limits.memory < 2 ^ 43)
    (h2 : -(2 ^ 43) ≤ res.minRequests.memory ∧ res.minRequests.memory < 2 ^ 43)
    (h3 : -(2 ^ 43) ≤ stageReq.memory ∧ stageReq.memory < 2 ^ 43) :
    (convertMemoryToBytes res stageReq).1.limits.memory = 1048576 * res.limits.memory ∧
    (convertMemoryToBytes res stageReq).1.minRequests.memory =
      1048576 * res.minRequests.memory ∧
    (convertMemoryToBytes res stageReq).2.memory = 1048576 * stageReq.memory ∧
    (convertMemoryToBytes res stageReq).1.limits.cpu = res.limits.cpu ∧
    (convertMemoryToBytes res stageReq).1.limits.gpu = res.limits.gpu ∧
    (convertMemoryToBytes res stageReq).1.minRequests.cpu = res.minRequests.cpu ∧
    (convertMemoryToBytes res stageReq).1.minRequests.gpu = res.minRequests.gpu ∧
    (convertMemoryToBytes res stageReq).2.cpu = stageReq.cpu ∧
    (convertMemoryToBytes res stageReq).2.gpu = stageReq.gpu := by
  have key : ∀ m : Int, -(2 ^ 43) ≤ m → m < 2 ^ 43 → mulMem m = 1048576 * m := by
    intro m hlo hhi
    unfold mulMem
    rw [wrap64_eq_self (m * (1024 * 1024)) (by nlinarith) (by nlinarith)]
    ring
  exact ⟨key _ h1.1 h1.2, key _ h2.1 h2.2, key _ h3.1 h3.2,
    rfl, rfl, rfl, rfl, rfl, rfl⟩

/-- C9 witness: a 512 MiB limit, 4 MiB minimum request and 100 MiB
stage request. -/
theorem memory_megabytes_to_bytes_witness :
    (-(2 ^ 43) ≤ memExample.limits.memory ∧ memExample.limits.memory < 2 ^ 43) ∧
      (convertMemoryToBytes memExample stageExample).1.limits.memory =
        1048576 * memExample.limits.memory :=
  ⟨by decide,
   (memory_megabytes_to_bytes memExample stageExample
      (by decide) (by decide) (by decide)).1⟩

end DroneKube
